import Mathlib

/-!
Shallow embedding of `src/PIPlot/PIPlot.py`.

The repository has two functions:
  * `PI_plot(tags, df, PIAttributes, ax=None, savefig=False, folder=None, figname=None)`
  * `create_pi_attributes(tag, **kwargs)`

The embedding models matplotlib axes as records of the observable fields the
code touches (plotted lines, labels, legend, grid flag, position box, right
spine position, frame/patch flags, and the color-cycle counter).  Colors are
modelled by their position in the default matplotlib property cycle, which
holds 10 pairwise distinct colors; `get_next_color` returns position `% 10`
and advances the counter.  Rational numbers stand for the float constants
(0.3, 0.5, 0.8, 1.1, 1.2, 0.75) — these are exactly representable and the
code only ever stores and compares them.  Python exceptions are modelled by
an error outcome carrying the side effects (prints, file writes, plot calls)
that happened before the raise.
-/

namespace PIPlot

/-- A pandas timestamp, restricted to the fields the code reads
(`.day`, `.month`, `.year`, `.hour`). -/
structure Timestamp where
  day : Nat
  month : Nat
  year : Nat
  hour : Nat
deriving DecidableEq, Repr

/-- The dataframe: a time index plus columns accessed as `getattr(df, tag)`.
The sampled values are opaque (`α`); the code never inspects them, it only
hands them to `plot`. -/
structure DataFrame (α : Type) where
  index : List Timestamp
  cols : String → α

/-- An axes position rectangle, as returned by `get_position()`. -/
structure Box where
  x0 : ℚ
  y0 : ℚ
  width : ℚ
  height : ℚ
deriving DecidableEq, Repr

/-- One plotted line: the series data, its legend label, whether
`linestyle='--'` was passed, the `alpha` value if any, and the color's
position in the property cycle. -/
structure Line (α : Type) where
  data : α
  label : String
  dashed : Bool
  alpha : Option ℚ
  color : Nat
deriving DecidableEq, Repr

/-- A legend: its entry labels, the `loc` argument and the `bbox_to_anchor`
argument (`none` = matplotlib default). -/
structure LegendSpec where
  entries : List String
  loc : Option String
  anchor : Option (ℚ × ℚ)
deriving DecidableEq, Repr

/-- A matplotlib axes object, restricted to the state this code mutates. -/
structure Axis (α : Type) where
  lines : List (Line α)
  ylabel : Option String
  xlabel : Option String
  legend : Option LegendSpec
  grid : Bool
  position : Box
  spineRight : Option (String × ℚ)
  frameOn : Bool
  patchVisible : Bool
  cycleCount : Nat
deriving DecidableEq, Repr

/-- The figure; the only figure state the code touches is
`subplots_adjust(right=...)`. -/
structure Figure where
  right : Option ℚ
deriving DecidableEq, Repr

/-- Side effects in occurrence order: a `plot` call on axes `axIdx`, a
`print`, or a `savefig` with the given path. -/
inductive Event where
  | plot (axIdx : Nat) (label : String) (dashed : Bool) (alpha : Option ℚ) (color : Nat)
  | print (msg : String)
  | save (path : String)
deriving DecidableEq, Repr

/-- The color recorded by a `plot` event. -/
def Event.colorOf : Event → Option Nat
  | .plot _ _ _ _ c => some c
  | _ => none

/-- Python exceptions the function can raise: the explicit
`raise Exception('Cannot plot more than 3 units')`, a `NameError` for an
unbound local (`fig`, `fignamepdf`), a `TypeError` (`None + str`), and an
`IndexError` (`df.index[0]` on an empty index). -/
inductive PIErr where
  | exc (msg : String)
  | nameError (var : String)
  | typeError (msg : String)
  | indexError
deriving DecidableEq, Repr

/-- The returned value: a bare axes (1-unit case) or the axes list. -/
inductive PIResult (α : Type) where
  | single (a : Axis α)
  | multi (axes : List (Axis α))
deriving DecidableEq, Repr

/-- Result of a call: normal return with the final figure state and the
event trace, or an exception with the trace accumulated before the raise. -/
inductive Outcome (α : Type) where
  | ok (r : PIResult α) (fig : Option Figure) (trace : List Event)
  | err (e : PIErr) (trace : List Event)
deriving DecidableEq, Repr

/-- Python `str.split(' ')` on the character list: split at every single space,
keeping empty pieces (`''.split(' ') == ['']`). -/
def pySplitAux : List Char → List Char → List String
  | [], cur => [String.mk cur.reverse]
  | c :: cs, cur =>
      if c = ' ' then String.mk cur.reverse :: pySplitAux cs []
      else pySplitAux cs (c :: cur)

/-- The selector split on spaces, `tags.split(' ')`. -/
def pySplit (s : String) : List String :=
  pySplitAux s.data []

/-- A fresh axes as produced by `plt.subplots`: no lines, no labels, grid on
(the module-level seaborn style sets `axes.grid: True`), frame on, patch
visible, color cycle at the start. -/
def freshAxis {α : Type} (b : Box) : Axis α :=
  { lines := [], ylabel := none, xlabel := none, legend := none,
    grid := true, position := b, spineRight := none, frameOn := true,
    patchVisible := true, cycleCount := 0 }

/-- Twin axes `ax.twinx()`: a new axes at the same position, sharing x; created with
the frame off, its own fresh color cycle, and grid on from the style. -/
def Axis.twinx {α : Type} (a : Axis α) : Axis α :=
  { freshAxis a.position with frameOn := false }

/-- The scan at lines 47–51: build the `tagunits` dict, inserting
`tag ↦ PIAttributes[tag]['engunits']` whenever the unit is not yet among the
dict's values (first-seen tag wins). -/
def scanUnitsAux (pia : String → String → String) (acc : List (String × String)) :
    List String → List (String × String)
  | [] => acc
  | t :: ts =>
      if (acc.map Prod.snd).contains (pia t "engunits")
      then scanUnitsAux pia acc ts
      else scanUnitsAux pia (acc ++ [(t, pia t "engunits")]) ts

/-- The `tagunits` dict for a tag list, starting from the empty dict. -/
def scanUnits (pia : String → String → String) (ts : List String) :
    List (String × String) :=
  scanUnitsAux pia [] ts

/-- Pairwise `for _ax, unit in zip(axes, tagunits.values()): _ax.set_ylabel(unit)` —
pairwise mutation, extra axes (or units) left untouched/unused. -/
def setYlabels {α : Type} : List (Axis α) → List String → List (Axis α)
  | axes, [] => axes
  | [], _ => []
  | a :: as_, u :: us => { a with ylabel := some u } :: setYlabels as_ us

/-- Mutate the `i`-th element of a list in place (Python list indexing on an
index that is known to be in range). -/
def listUpdate {β : Type} (l : List β) (i : Nat) (f : β → β) : List β :=
  match l.get? i with
  | some x => l.set i (f x)
  | none => l

/-- Loop body of the 1-unit branch (lines 60–65): plot the series with an
auto-cycled color, then `set_ylabel(units[0])`, `set_xlabel('Time')`,
`legend()` (legend entries = labels of all lines present after this plot). -/
def loop1 {α : Type} (cols : String → α) (u : String) :
    Axis α × List Event → List String → Axis α × List Event
  | st, [] => st
  | (a, evs), t :: ts =>
      let c := a.cycleCount % 10
      let a1 : Axis α :=
        { a with lines := a.lines ++ [⟨cols t, t, false, none, c⟩],
                 cycleCount := a.cycleCount + 1 }
      let a2 : Axis α :=
        { a1 with ylabel := some u, xlabel := some "Time",
                  legend := some ⟨a1.lines.map Line.label, none, none⟩ }
      loop1 cols u (a2, evs ++ [.plot 0 t false none c]) ts

/-- Loop body of the 2-unit branch (lines 78–90): resolve the tag's axes by
`units.index(unit)`; on axes 0 plot solid and set the x label, otherwise
plot `linestyle='--', alpha=0.3` and call `grid(False)`; collect labels. -/
def loop2 {α : Type} (pia : String → String → String) (cols : String → α)
    (units : List String) :
    List (Axis α) × List String × List Event → List String →
    List (Axis α) × List String × List Event
  | st, [] => st
  | (axes, labels, evs), t :: ts =>
      let unit := pia t "engunits"
      let idx := units.indexOf unit
      match axes.get? idx with
      | none => loop2 pia cols units (axes, labels, evs) ts
      | some aI =>
          if idx = 0 then
            let c := aI.cycleCount % 10
            let aI' : Axis α :=
              { aI with lines := aI.lines ++ [⟨cols t, t, false, none, c⟩],
                        cycleCount := aI.cycleCount + 1,
                        xlabel := some "Time" }
            loop2 pia cols units
              (axes.set idx aI', labels ++ [t], evs ++ [.plot idx t false none c]) ts
          else
            let c := aI.cycleCount % 10
            let aI' : Axis α :=
              { aI with lines := aI.lines ++ [⟨cols t, t, true, some (mkRat 3 10), c⟩],
                        cycleCount := aI.cycleCount + 1,
                        grid := false }
            loop2 pia cols units
              (axes.set idx aI', labels ++ [t], evs ++ [.plot idx t true (some (mkRat 3 10)) c]) ts

/-- Loop body of the 3-unit branch (lines 103–116): first
`next_color = axes[0]._get_lines.get_next_color()` (advancing axes 0's
cycle no matter which axes the tag lands on), then plot with that explicit
color — solid on axes 0, `'--'` with `alpha=0.5` and `grid(False)`
elsewhere. -/
def loop3 {α : Type} (pia : String → String → String) (cols : String → α)
    (units : List String) :
    List (Axis α) × List String × List Event → List String →
    List (Axis α) × List String × List Event
  | st, [] => st
  | (axes, labels, evs), t :: ts =>
      match axes.get? 0 with
      | none => loop3 pia cols units (axes, labels, evs) ts
      | some a0 =>
          let c := a0.cycleCount % 10
          let axes1 := axes.set 0 { a0 with cycleCount := a0.cycleCount + 1 }
          let unit := pia t "engunits"
          let idx := units.indexOf unit
          match axes1.get? idx with
          | none => loop3 pia cols units (axes1, labels, evs) ts
          | some aI =>
              if idx = 0 then
                let aI' : Axis α :=
                  { aI with lines := aI.lines ++ [⟨cols t, t, false, none, c⟩],
                            xlabel := some "Time" }
                loop3 pia cols units
                  (axes1.set idx aI', labels ++ [t], evs ++ [.plot idx t false none c]) ts
              else
                let aI' : Axis α :=
                  { aI with lines := aI.lines ++ [⟨cols t, t, true, some (mkRat 1 2), c⟩],
                            grid := false }
                loop3 pia cols units
                  (axes1.set idx aI', labels ++ [t], evs ++ [.plot idx t true (some (mkRat 1 2)) c]) ts

/-- The `savefig` block (lines 133–149).  With `figname=None` the name is
derived from `df.index[0]`/`df.index[-1]` (hour suffixes exactly when the two
`.day` fields agree) and `fignamepdf`/`fignamepng` are bound; with a caller
figname they stay unbound.  Then `print(f'Saving figure as {folder+figname}')`
(a `TypeError` if `folder` is `None`), then the two `savefig` calls — the
first of which raises `NameError` when `fignamepdf` was never bound. -/
def savefigStep (savefig : Bool) (folder figname : Option String)
    (index : List Timestamp) (ts : List String) (evs : List Event) :
    Except (PIErr × List Event) (List Event) :=
  if savefig then
    let resolved : Except PIErr (String × Option (String × String)) :=
      match figname with
      | some f => .ok (f, none)
      | none =>
          match index.head?, index.getLast? with
          | some s, some e =>
              let sh := if ¬ s.day = e.day then "" else "-" ++ toString s.hour
              let eh := if ¬ s.day = e.day then "" else "-" ++ toString e.hour
              let f := toString s.day ++ "-" ++ toString s.month ++ "-" ++
                toString s.year ++ sh ++ "-" ++ toString e.day ++ "-" ++
                toString e.month ++ "-" ++ toString e.year ++ eh ++ "-" ++
                String.intercalate "_" ts
              .ok (f, some (f ++ ".pdf", f ++ ".png"))
          | _, _ => .error .indexError
    match resolved with
    | .error e => .error (e, evs)
    | .ok (f, pdfpng) =>
        match folder with
        | none => .error (.typeError "unsupported operand types for +", evs)
        | some fol =>
            let evs1 := evs ++ [.print ("Saving figure as " ++ fol ++ f)]
            match pdfpng with
            | none => .error (.nameError "fignamepdf", evs1)
            | some (fpdf, fpng) =>
                .ok (evs1 ++ [.save (fol ++ fpdf), .save (fol ++ fpng)])
  else .ok evs

/-- The renderer `PI_plot`.  Here `pia tag attr` models `PIAttributes[tag][attr]` (the code
reads only `'engunits'`); `b` is the position rectangle the fresh (or given)
primary axes starts with. -/
def PI_plot {α : Type} (pia : String → String → String) (df : DataFrame α)
    (tags : String) (ax? : Option (Axis α)) (savefig : Bool)
    (folder figname : Option String) (b : Box) : Outcome α :=
  -- `if ax is None: fig, ax = plt.subplots(...)` — `fig` is bound only here.
  let fig? : Option Figure := match ax? with
    | none => some ⟨none⟩
    | some _ => none
  let ax0 : Axis α := match ax? with
    | none => freshAxis b
    | some a => a
  let ts := pySplit tags
  let tagunits := scanUnits pia ts
  let n := tagunits.length
  let units := tagunits.map Prod.snd
  if 3 < n then .err (.exc "Cannot plot more than 3 units") []
  else
    let st : Except (PIErr × List Event) (List (Axis α) × Option Figure × List Event) :=
      if n = 1 then
        -- `units[0]` is safe here: `n = 1` means `units` is a singleton.
        let r := loop1 df.cols (units.headD "") (ax0, []) ts
        .ok ([r.1], fig?, r.2)
      else
        let axes := ax0 :: (List.range (n - 1)).map (fun _ => ax0.twinx)
        if n = 2 then
          let axes := setYlabels axes units
          let r := loop2 pia df.cols units (axes, [], []) ts
          let axes := listUpdate r.1 0 (fun a =>
            { a with legend := some ⟨r.2.1, some "center left",
                some (mkRat 11 10, mkRat 1 2)⟩ })
          .ok (axes, fig?, r.2.2)
        else if n = 3 then
          let axes := setYlabels axes units
          let r := loop3 pia df.cols units (axes, [], []) ts
          let axes := listUpdate r.1 0 (fun a =>
            { a with
                position := ⟨a.position.x0, a.position.y0,
                  a.position.width * mkRat 4 5, a.position.height⟩,
                legend := some ⟨r.2.1, some "center left",
                  some (mkRat 6 5, mkRat 1 2)⟩ })
          -- `fig.subplots_adjust(right=0.75)`: NameError when `ax` was supplied.
          match fig? with
          | none => .error (.nameError "fig", r.2.2)
          | some fg =>
              let axes := listUpdate axes (axes.length - 1) (fun a =>
                { a with spineRight := some ("axes", mkRat 11 10),
                         frameOn := true, patchVisible := false })
              .ok (axes, some { fg with right := some (mkRat 3 4) }, r.2.2)
        else .ok (axes, fig?, [])
    match st with
    | .error (e, evs) => .err e evs
    | .ok (axes, fg, evs) =>
        match savefigStep savefig folder figname df.index ts evs with
        | .error (e, evs2) => .err e evs2
        | .ok evs2 =>
            if 1 < n then .ok (.multi axes) fg evs2
            else .ok (.single (axes.headD ax0)) fg evs2

/-- The fixed attribute schema of `create_pi_attributes` (lines 169–180). -/
def piKeys : List String :=
  ["descriptor", "exdesc", "typicalvalue", "engunits", "zero", "span",
   "pointtype", "pointsource", "scan", "excmin", "excmax", "excdev",
   "shutdown", "archiving", "compressing", "step", "compmin",
   "compmax", "compdev", "creationdate", "creator", "changedate",
   "changer", "displaydigits", "location1", "location2", "location3",
   "location4", "location5", "filtercode", "squareroot", "totalcode",
   "convers", "srcptid", "instrumenttag", "userint1", "userint2",
   "userreal1", "userreal2", "ptowner", "ptgroup", "ptaccess",
   "ptsecurity", "dataowner", "datagroup", "dataaccess",
   "datasecurity", "pointid", "recno", "ptclassname", "ptclassid",
   "ptclassrev", "tag", "sourcetag", "digitalset", "compdevpercent",
   "excdevpercent"]

/-- Assignment `piattr[k] = v` on an insertion-ordered dict: update the entry if the
key is present, otherwise append it. -/
def dictSet (d : List (String × String)) (k v : String) : List (String × String) :=
  if (d.map Prod.fst).contains k
  then d.map (fun p => if p.1 = k then (k, v) else p)
  else d ++ [(k, v)]

/-- The factory `create_pi_attributes(tag, **kwargs)`: the dict of all `piKeys` mapped to
the empty string, then `piattr[k] = v` for each keyword pair in order.  The
`tag` argument is accepted and ignored. -/
def create_pi_attributes (_tag : String) (kwargs : List (String × String)) :
    List (String × String) :=
  kwargs.foldl (fun d kv => dictSet d kv.1 kv.2) (piKeys.map (fun k => (k, "")))

/-! Spec-side closed forms used to state and prove the theorems. -/

/-- The axes visible in a normal return (empty when the call raised). -/
def Outcome.axesOf {α : Type} : Outcome α → List (Axis α)
  | .ok (.multi axes) _ _ => axes
  | .ok (.single a) _ _ => [a]
  | .err _ _ => []

/-- A solid line for tag `t` with color at cycle position `c`. -/
def solidLine {α : Type} (cols : String → α) (t : String) (c : Nat) : Line α :=
  { data := cols t, label := t, dashed := false, alpha := none, color := c % 10 }

/-- A dashed line for tag `t` with alpha `al` and color at cycle position `c`. -/
def dashedLine {α : Type} (cols : String → α) (al : ℚ) (t : String) (c : Nat) : Line α :=
  { data := cols t, label := t, dashed := true, alpha := some al, color := c % 10 }

/-- Solid lines for consecutive tags, colors cycling from position `c`. -/
def solidLines {α : Type} (cols : String → α) : Nat → List String → List (Line α)
  | _, [] => []
  | c, t :: ts => solidLine cols t c :: solidLines cols (c + 1) ts

/-- Dashed lines with a fixed alpha, colors cycling from position `c`. -/
def dashedLines {α : Type} (cols : String → α) (al : ℚ) : Nat → List String → List (Line α)
  | _, [] => []
  | c, t :: ts => dashedLine cols al t c :: dashedLines cols al (c + 1) ts

/-- The event trace of the 1-unit loop. -/
def plot1Events : Nat → List String → List Event
  | _, [] => []
  | c, t :: ts => .plot 0 t false none (c % 10) :: plot1Events (c + 1) ts

/-- The event trace of the 3-unit loop: one `plot` per tag, in tag order,
with the color taken from the single shared cycle position. -/
def plot3Events (pia : String → String → String) (units : List String) :
    Nat → List String → List Event
  | _, [] => []
  | c, t :: ts =>
      (if units.indexOf (pia t "engunits") = 0
       then Event.plot 0 t false none (c % 10)
       else Event.plot (units.indexOf (pia t "engunits")) t true (some (mkRat 1 2)) (c % 10)) ::
      plot3Events pia units (c + 1) ts

/-! Properties of the unit scan. -/

lemma scanUnitsAux_mono (pia : String → String → String) (u : String) :
    ∀ (ts : List String) (acc : List (String × String)),
      u ∈ acc.map Prod.snd → u ∈ (scanUnitsAux pia acc ts).map Prod.snd := by
  intro ts
  induction ts with
  | nil => intro acc h; exact h
  | cons t ts ih =>
      intro acc h
      simp only [scanUnitsAux]
      by_cases hc : (acc.map Prod.snd).contains (pia t "engunits")
      · rw [if_pos hc]; exact ih _ h
      · rw [if_neg hc]
        exact ih _ (by simpa using Or.inl h)

lemma scanUnitsAux_covers (pia : String → String → String) :
    ∀ (ts : List String) (acc : List (String × String)) (t : String), t ∈ ts →
      pia t "engunits" ∈ (scanUnitsAux pia acc ts).map Prod.snd := by
  intro ts
  induction ts with
  | nil => intro acc t h; cases h
  | cons t0 ts ih =>
      intro acc t h
      simp only [scanUnitsAux]
      rcases List.mem_cons.mp h with h | h
      · subst h
        by_cases hc : (acc.map Prod.snd).contains (pia t "engunits")
        · rw [if_pos hc]
          exact scanUnitsAux_mono pia _ ts acc (by simpa using hc)
        · rw [if_neg hc]
          exact scanUnitsAux_mono pia _ ts _ (by simp)
      · by_cases hc : (acc.map Prod.snd).contains (pia t0 "engunits")
        · rw [if_pos hc]; exact ih _ t h
        · rw [if_neg hc]; exact ih _ t h

lemma scanUnitsAux_mem (pia : String → String → String) :
    ∀ (ts : List String) (acc : List (String × String)) (p : String × String),
      p ∈ scanUnitsAux pia acc ts →
      p ∈ acc ∨ (p.1 ∈ ts ∧ pia p.1 "engunits" = p.2) := by
  intro ts
  induction ts with
  | nil => intro acc p h; exact Or.inl h
  | cons t ts ih =>
      intro acc p h
      simp only [scanUnitsAux] at h
      by_cases hc : (acc.map Prod.snd).contains (pia t "engunits")
      · rw [if_pos hc] at h
        rcases ih _ p h with h | h
        · exact Or.inl h
        · exact Or.inr ⟨List.mem_cons_of_mem _ h.1, h.2⟩
      · rw [if_neg hc] at h
        rcases ih _ p h with h | h
        · rcases List.mem_append.mp h with h | h
          · exact Or.inl h
          · rcases List.mem_singleton.mp h with rfl
            exact Or.inr ⟨List.mem_cons_self _ _, rfl⟩
        · exact Or.inr ⟨List.mem_cons_of_mem _ h.1, h.2⟩

lemma scanUnitsAux_nodup (pia : String → String → String) :
    ∀ (ts : List String) (acc : List (String × String)),
      (acc.map Prod.snd).Nodup → ((scanUnitsAux pia acc ts).map Prod.snd).Nodup := by
  intro ts
  induction ts with
  | nil => intro acc h; exact h
  | cons t ts ih =>
      intro acc h
      simp only [scanUnitsAux]
      by_cases hc : (acc.map Prod.snd).contains (pia t "engunits")
      · rw [if_pos hc]; exact ih _ h
      · rw [if_neg hc]
        refine ih _ ?_
        have hnm : pia t "engunits" ∉ acc.map Prod.snd := by simpa using hc
        simp only [List.map_append, List.map_cons, List.map_nil]
        exact List.Nodup.append h (List.nodup_singleton _)
          (by simpa [List.disjoint_singleton] using hnm)

lemma scanUnits_mem (pia : String → String → String) (ts : List String)
    (p : String × String) (h : p ∈ scanUnits pia ts) :
    p.1 ∈ ts ∧ pia p.1 "engunits" = p.2 := by
  rcases scanUnitsAux_mem pia ts [] p h with h | h
  · cases h
  · exact h

lemma scanUnits_covers (pia : String → String → String) (ts : List String)
    (t : String) (h : t ∈ ts) :
    pia t "engunits" ∈ (scanUnits pia ts).map Prod.snd :=
  scanUnitsAux_covers pia ts [] t h

lemma scanUnits_nodup (pia : String → String → String) (ts : List String) :
    ((scanUnits pia ts).map Prod.snd).Nodup :=
  scanUnitsAux_nodup pia ts [] (by simp)

/-- Splitting always yields at least one piece, as in Python. -/
lemma pySplitAux_ne_nil : ∀ (l cur : List Char), pySplitAux l cur ≠ [] := by
  intro l
  induction l with
  | nil => intro cur; simp [pySplitAux]
  | cons c cs ih =>
      intro cur
      simp only [pySplitAux]
      by_cases hc : c = ' '
      · rw [if_pos hc]; simp
      · rw [if_neg hc]; exact ih _

lemma pySplit_ne_nil (s : String) : pySplit s ≠ [] :=
  pySplitAux_ne_nil s.data []

/-! Line-list facts. -/

lemma solidLines_map_label {α : Type} (cols : String → α) :
    ∀ (c : Nat) (p : List String), (solidLines cols c p).map Line.label = p := by
  intro c p
  induction p generalizing c with
  | nil => simp [solidLines]
  | cons t ts ih => simp [solidLines, solidLine, ih]

lemma dashedLines_map_label {α : Type} (cols : String → α) (al : ℚ) :
    ∀ (c : Nat) (p : List String), (dashedLines cols al c p).map Line.label = p := by
  intro c p
  induction p generalizing c with
  | nil => simp [dashedLines]
  | cons t ts ih => simp [dashedLines, dashedLine, ih]

lemma solidLines_style {α : Type} (cols : String → α) :
    ∀ (c : Nat) (p : List String) (l : Line α), l ∈ solidLines cols c p →
      l.dashed = false ∧ l.alpha = none := by
  intro c p
  induction p generalizing c with
  | nil => intro l h; cases h
  | cons t ts ih =>
      intro l h
      rcases List.mem_cons.mp h with h | h
      · subst h; exact ⟨rfl, rfl⟩
      · exact ih _ l h

lemma dashedLines_style {α : Type} (cols : String → α) (al : ℚ) :
    ∀ (c : Nat) (p : List String) (l : Line α), l ∈ dashedLines cols al c p →
      l.dashed = true ∧ l.alpha = some al := by
  intro c p
  induction p generalizing c with
  | nil => intro l h; cases h
  | cons t ts ih =>
      intro l h
      rcases List.mem_cons.mp h with h | h
      · subst h; exact ⟨rfl, rfl⟩
      · exact ih _ l h

/-! Closed form of the 1-unit loop. -/

lemma loop1_cons {α : Type} (cols : String → α) (u : String) (a : Axis α)
    (evs : List Event) (t : String) (ts : List String) :
    loop1 cols u (a, evs) (t :: ts) =
      loop1 cols u
        ({ a with
            lines := a.lines ++ [solidLine cols t a.cycleCount],
            cycleCount := a.cycleCount + 1,
            ylabel := some u, xlabel := some "Time",
            legend := some ⟨(a.lines ++ [solidLine cols t a.cycleCount]).map Line.label,
              none, none⟩ },
         evs ++ [.plot 0 t false none (a.cycleCount % 10)]) ts := rfl

lemma loop1_spec {α : Type} (cols : String → α) (u : String) :
    ∀ (p : List String) (a : Axis α) (evs : List Event),
      loop1 cols u (a, evs) p =
        ((if p.isEmpty then a else
          { a with lines := a.lines ++ solidLines cols a.cycleCount p,
                   cycleCount := a.cycleCount + p.length,
                   ylabel := some u, xlabel := some "Time",
                   legend := some ⟨a.lines.map Line.label ++ p, none, none⟩ }),
         evs ++ plot1Events a.cycleCount p) := by
  intro p
  induction p with
  | nil => intro a evs; simp [loop1, plot1Events]
  | cons t rest ih =>
      intro a evs
      rw [loop1_cons, ih]
      cases a
      cases rest with
      | nil => simp [solidLines, solidLine, plot1Events]
      | cons t2 r2 =>
          simp [solidLines, solidLine, plot1Events, List.append_assoc, List.map_append]
          omega

/-! Closed form of the 2-unit loop. -/

lemma loop2_spec {α : Type} (pia : String → String → String) (cols : String → α)
    (u0 u1 : String) (hne : u0 ≠ u1) :
    ∀ (p : List String),
      (∀ t ∈ p, pia t "engunits" = u0 ∨ pia t "engunits" = u1) →
      ∀ (a0 a1 : Axis α) (lbls : List String) (evs : List Event),
      ∃ evs2,
      loop2 pia cols [u0, u1] ([a0, a1], lbls, evs) p =
        ([{ a0 with
              lines := a0.lines ++ solidLines cols a0.cycleCount
                (p.filter (fun t => pia t "engunits" == u0)),
              cycleCount := a0.cycleCount +
                (p.filter (fun t => pia t "engunits" == u0)).length,
              xlabel := if (p.filter (fun t => pia t "engunits" == u0)).isEmpty
                then a0.xlabel else some "Time" },
          { a1 with
              lines := a1.lines ++ dashedLines cols (mkRat 3 10) a1.cycleCount
                (p.filter (fun t => pia t "engunits" == u1)),
              cycleCount := a1.cycleCount +
                (p.filter (fun t => pia t "engunits" == u1)).length,
              grid := if (p.filter (fun t => pia t "engunits" == u1)).isEmpty
                then a1.grid else false }],
         lbls ++ p, evs2) := by
  intro p
  induction p with
  | nil =>
      intro _ a0 a1 lbls evs
      refine ⟨evs, ?_⟩
      cases a0
      cases a1
      simp [loop2, List.filter, solidLines, dashedLines]
  | cons t rest ih =>
      intro hp a0 a1 lbls evs
      have ht := hp t (List.mem_cons_self _ _)
      have hrest : ∀ t ∈ rest, pia t "engunits" = u0 ∨ pia t "engunits" = u1 :=
        fun t ht => hp t (List.mem_cons_of_mem _ ht)
      rcases ht with ht | ht
      · have hidx : List.indexOf (pia t "engunits") [u0, u1] = 0 := by
          rw [ht]; exact List.indexOf_cons_self _ _
        simp only [loop2, hidx, List.get?]
        rcases ih hrest
          { a0 with lines := a0.lines ++ [⟨cols t, t, false, none, a0.cycleCount % 10⟩],
                    cycleCount := a0.cycleCount + 1, xlabel := some "Time" }
          a1 (lbls ++ [t]) (evs ++ [.plot 0 t false none (a0.cycleCount % 10)])
          with ⟨evs2, heq⟩
        refine ⟨evs2, ?_⟩
        rw [if_pos trivial]
        simp only [List.set] at heq ⊢
        rw [heq]
        have hft : (pia t "engunits" == u0) = true := by simp [ht]
        have hff : (pia t "engunits" == u1) = false := by simp [ht, hne]
        cases a0
        simp [List.filter_cons, hft, hff, solidLines, solidLine, List.append_assoc,
          ite_self]
        omega
      · have hidx : List.indexOf (pia t "engunits") [u0, u1] = 1 := by
          rw [ht]
          rw [List.indexOf_cons_ne _ hne]
          simp [List.indexOf_cons_self]
        simp only [loop2, hidx, List.get?]
        rw [if_neg (by omega : ¬ (1 : Nat) = 0)]
        rcases ih hrest a0
          { a1 with lines := a1.lines ++ [⟨cols t, t, true, some (mkRat 3 10), a1.cycleCount % 10⟩],
                    cycleCount := a1.cycleCount + 1, grid := false }
          (lbls ++ [t]) (evs ++ [.plot 1 t true (some (mkRat 3 10)) (a1.cycleCount % 10)])
          with ⟨evs2, heq⟩
        refine ⟨evs2, ?_⟩
        simp only [List.set] at heq ⊢
        rw [heq]
        have hft : (pia t "engunits" == u0) = false := by
          simp [ht]; exact Ne.symm hne
        have hff : (pia t "engunits" == u1) = true := by simp [ht]
        cases a1
        simp [List.filter_cons, hft, hff, dashedLines, dashedLine, List.append_assoc,
          ite_self]
        omega

/-! The 3-unit loop: the event trace and the preserved axes geometry. -/

lemma plot3Events_length (pia : String → String → String) (units : List String) :
    ∀ (c : Nat) (p : List String), (plot3Events pia units c p).length = p.length := by
  intro c p
  induction p generalizing c with
  | nil => simp [plot3Events]
  | cons t ts ih => simp [plot3Events, ih]

lemma plot3Events_filterMap_colorOf (pia : String → String → String)
    (units : List String) :
    ∀ (p : List String) (c : Nat),
      (plot3Events pia units c p).filterMap Event.colorOf =
        (List.range p.length).map (fun i => (c + i) % 10) := by
  intro p
  induction p with
  | nil => intro c; simp [plot3Events]
  | cons t ts ih =>
      intro c
      simp only [plot3Events, List.filterMap_cons, List.length_cons,
        List.range_succ_eq_map, List.map_cons, List.map_map]
      rw [show Event.colorOf (if List.indexOf (pia t "engunits") units = 0
          then Event.plot 0 t false none (c % 10)
          else Event.plot (List.indexOf (pia t "engunits") units) t true
            (some (mkRat 1 2)) (c % 10)) = some (c % 10) from by
        by_cases h : List.indexOf (pia t "engunits") units = 0
        · rw [if_pos h]; rfl
        · rw [if_neg h]; rfl]
      rw [ih (c + 1)]
      simp only [Nat.add_zero]
      refine congrArg _ ?_
      refine List.map_congr_left ?_
      intro i _
      simp only [Function.comp]
      omega

lemma loop3_spec {α : Type} (pia : String → String → String) (cols : String → α)
    (units : List String) (hlen : units.length = 3) :
    ∀ (p : List String), (∀ t ∈ p, pia t "engunits" ∈ units) →
    ∀ (a0 a1 a2 : Axis α) (lbls : List String) (evs : List Event),
    ∃ (b0 b1 b2 : Axis α) (lbls2 : List String),
      loop3 pia cols units ([a0, a1, a2], lbls, evs) p =
        ([b0, b1, b2], lbls2, evs ++ plot3Events pia units a0.cycleCount p) ∧
      b0.position = a0.position := by
  intro p
  induction p with
  | nil =>
      intro _ a0 a1 a2 lbls evs
      exact ⟨a0, a1, a2, lbls, by simp [loop3, plot3Events], rfl⟩
  | cons t rest ih =>
      intro hp a0 a1 a2 lbls evs
      have ht := hp t (List.mem_cons_self _ _)
      have hrest : ∀ t ∈ rest, pia t "engunits" ∈ units :=
        fun t h => hp t (List.mem_cons_of_mem _ h)
      have hlt : List.indexOf (pia t "engunits") units < 3 := by
        rw [← hlen]; exact List.indexOf_lt_length.mpr ht
      have h3 : List.indexOf (pia t "engunits") units = 0 ∨
          List.indexOf (pia t "engunits") units = 1 ∨
          List.indexOf (pia t "engunits") units = 2 := by omega
      rcases h3 with hidx | hidx | hidx
      · simp only [loop3, hidx, List.get?, List.set]
        rw [if_pos trivial]
        rcases ih hrest
          { a0 with cycleCount := a0.cycleCount + 1,
                    lines := a0.lines ++ [⟨cols t, t, false, none, a0.cycleCount % 10⟩],
                    xlabel := some "Time" }
          a1 a2 (lbls ++ [t]) (evs ++ [.plot 0 t false none (a0.cycleCount % 10)])
          with ⟨b0, b1, b2, lbls2, heq, hpos⟩
        refine ⟨b0, b1, b2, lbls2, ?_, hpos⟩
        rw [heq]
        simp [plot3Events, hidx, List.append_assoc]
      · simp only [loop3, hidx, List.get?, List.set]
        rw [if_neg (by omega : ¬ (1 : Nat) = 0)]
        rcases ih hrest
          { a0 with cycleCount := a0.cycleCount + 1 }
          { a1 with lines := a1.lines ++ [⟨cols t, t, true, some (mkRat 1 2), a0.cycleCount % 10⟩],
                    grid := false }
          a2 (lbls ++ [t])
          (evs ++ [.plot 1 t true (some (mkRat 1 2)) (a0.cycleCount % 10)])
          with ⟨b0, b1, b2, lbls2, heq, hpos⟩
        refine ⟨b0, b1, b2, lbls2, ?_, hpos⟩
        rw [heq]
        simp [plot3Events, hidx, List.append_assoc]
      · simp only [loop3, hidx, List.get?, List.set]
        rw [if_neg (by omega : ¬ (2 : Nat) = 0)]
        rcases ih hrest
          { a0 with cycleCount := a0.cycleCount + 1 }
          a1
          { a2 with lines := a2.lines ++ [⟨cols t, t, true, some (mkRat 1 2), a0.cycleCount % 10⟩],
                    grid := false }
          (lbls ++ [t])
          (evs ++ [.plot 2 t true (some (mkRat 1 2)) (a0.cycleCount % 10)])
          with ⟨b0, b1, b2, lbls2, heq, hpos⟩
        refine ⟨b0, b1, b2, lbls2, ?_, hpos⟩
        rw [heq]
        simp [plot3Events, hidx, List.append_assoc]

/-! Save-figure behavior. -/

lemma savefigStep_default_name (fol : String) (idx : List Timestamp)
    (s e : Timestamp) (hh : idx.head? = some s) (hl : idx.getLast? = some e)
    (ts : List String) :
    savefigStep true (some fol) none idx ts = fun evs =>
      .ok (evs ++
        [.print ("Saving figure as " ++ fol ++
          (toString s.day ++ "-" ++ toString s.month ++ "-" ++ toString s.year ++
           (if s.day = e.day then "-" ++ toString s.hour else "") ++ "-" ++
           toString e.day ++ "-" ++ toString e.month ++ "-" ++ toString e.year ++
           (if s.day = e.day then "-" ++ toString e.hour else "") ++ "-" ++
           String.intercalate "_" ts)),
         .save (fol ++
          (toString s.day ++ "-" ++ toString s.month ++ "-" ++ toString s.year ++
           (if s.day = e.day then "-" ++ toString s.hour else "") ++ "-" ++
           toString e.day ++ "-" ++ toString e.month ++ "-" ++ toString e.year ++
           (if s.day = e.day then "-" ++ toString e.hour else "") ++ "-" ++
           String.intercalate "_" ts) ++ ".pdf"),
         .save (fol ++
          (toString s.day ++ "-" ++ toString s.month ++ "-" ++ toString s.year ++
           (if s.day = e.day then "-" ++ toString s.hour else "") ++ "-" ++
           toString e.day ++ "-" ++ toString e.month ++ "-" ++ toString e.year ++
           (if s.day = e.day then "-" ++ toString e.hour else "") ++ "-" ++
           String.intercalate "_" ts) ++ ".png")]) := by
  funext evs
  simp only [savefigStep, hh, hl]
  by_cases hd : s.day = e.day
  · simp [hd, String.append_assoc]
  · simp [hd, String.append_assoc]

/-! Concrete instances used by the witnesses and counterexamples. -/

/-- A metadata table: tags `A` and `D` share unit `u1`; `B`, `C`, `E` have
units `u2`, `u3`, `u4`; every other tag has unit `u0`. -/
def piaW : String → String → String := fun tag attr =>
  if attr = "engunits" then
    if tag = "A" then "u1" else if tag = "B" then "u2" else
    if tag = "C" then "u3" else if tag = "D" then "u1" else
    if tag = "E" then "u4" else "u0"
  else ""

/-- An index spanning two calendar days (1 Jan and 1 Feb 2020) that share
the same day-of-month. -/
def dfW : DataFrame String := ⟨[⟨1, 1, 2020, 8⟩, ⟨1, 2, 2020, 17⟩], fun t => t⟩

/-- An index spanning one calendar day, 08:00 to 17:00. -/
def dfW2 : DataFrame String := ⟨[⟨5, 3, 2021, 8⟩, ⟨5, 3, 2021, 17⟩], fun t => t⟩

/-- The default matplotlib subplot rectangle. -/
def boxW : Box := ⟨mkRat 1 8, mkRat 11 100, mkRat 31 40, mkRat 77 100⟩

/-! The claims. -/

/-- C1: a tag selector spanning more than 3 distinct engineering units makes
`PI_plot` raise `Exception('Cannot plot more than 3 units')` with an empty
side-effect trace: no series is plotted, nothing is printed, no file is
written, for every combination of the remaining arguments. -/
theorem PI_plot_unit_policy {α : Type} (pia : String → String → String)
    (df : DataFrame α) (tags : String) (ax? : Option (Axis α)) (savefig : Bool)
    (folder figname : Option String) (b : Box)
    (h : 3 < (scanUnits pia (pySplit tags)).length) :
    PI_plot pia df tags ax? savefig folder figname b =
      .err (.exc "Cannot plot more than 3 units") [] := by
  simp only [PI_plot]
  rw [if_pos h]

/-- Witness for C1: four tags with four distinct units. -/
theorem PI_plot_unit_policy_witness :
    3 < (scanUnits piaW (pySplit "A B C E")).length ∧
    PI_plot piaW dfW "A B C E" none false none none boxW =
      .err (.exc "Cannot plot more than 3 units") [] :=
  ⟨by decide, PI_plot_unit_policy piaW dfW "A B C E" none false none none boxW
    (by decide)⟩

/-- C10: when the caller supplies a pre-existing primary axes and the tags
span exactly 3 distinct units, `PI_plot` raises `NameError` on the local
`fig` (bound only on the axes-creation path) at the figure margin
adjustment, and therefore never returns the list of 3 axes. -/
theorem PI_plot_given_axis_three_units_fig_unbound {α : Type}
    (pia : String → String → String) (df : DataFrame α) (tags : String)
    (a : Axis α) (savefig : Bool) (folder figname : Option String) (b : Box)
    (hn : (scanUnits pia (pySplit tags)).length = 3) :
    ∃ evs, PI_plot pia df tags (some a) savefig folder figname b =
      .err (.nameError "fig") evs := by
  simp only [PI_plot, hn]
  norm_num

/-- Witness for C10: three distinct units, a supplied axes. -/
theorem PI_plot_given_axis_three_units_fig_unbound_witness :
    (scanUnits piaW (pySplit "A B C")).length = 3 ∧
    ∃ evs, PI_plot piaW dfW2 "A B C" (some (freshAxis boxW)) false none none boxW =
      .err (.nameError "fig") evs :=
  ⟨by decide, PI_plot_given_axis_three_units_fig_unbound piaW dfW2 "A B C"
    (freshAxis boxW) false none none boxW (by decide)⟩

/-- With `savefig=False` the save block is a no-op. -/
lemma savefigStep_false (folder figname : Option String) (idx : List Timestamp)
    (ts : List String) (evs : List Event) :
    savefigStep false folder figname idx ts evs = .ok evs := rfl

/-- Helper: one line per tag when the line labels enumerate the tags. -/
lemma length_filter_label {α : Type} (lines : List (Line α)) (ts : List String)
    (h : lines.map Line.label = ts) (hnd : ts.Nodup) (t : String) (ht : t ∈ ts) :
    (lines.filter (fun l => l.label == t)).length = 1 := by
  have h1 : (lines.filter (fun l => l.label == t)).length =
      List.countP (fun s => s == t) ts := by
    rw [← h, List.countP_map, ← List.countP_eq_length_filter]
    rfl
  rw [h1, ← List.count_eq_countP, List.count_eq_one_of_mem hnd ht]

/-- C2: with every tag sharing one engineering unit, `PI_plot` (with a fresh
figure, no persistence) returns a single axes — not a list — carrying one
solid line per tag in selector order, with a legend entry per tag, the
y-axis labeled with the unit and the x-axis labeled Time. -/
theorem PI_plot_one_unit {α : Type} (pia : String → String → String)
    (df : DataFrame α) (tags : String) (b : Box) (u : String)
    (hu : (scanUnits pia (pySplit tags)).map Prod.snd = [u]) :
    ∃ a tr,
      PI_plot pia df tags none false none none b = .ok (.single a) (some ⟨none⟩) tr ∧
      a.lines.map Line.label = pySplit tags ∧
      (∀ l ∈ a.lines, l.dashed = false ∧ l.alpha = none) ∧
      a.ylabel = some u ∧ a.xlabel = some "Time" ∧
      a.legend = some ⟨pySplit tags, none, none⟩ ∧
      ((pySplit tags).Nodup → ∀ t ∈ pySplit tags,
        (a.lines.filter (fun l => l.label == t)).length = 1) := by
  have hn : (scanUnits pia (pySplit tags)).length = 1 := by
    have h := congrArg List.length hu
    simpa using h
  simp only [PI_plot, hn, hu]
  norm_num
  rw [loop1_spec]
  rw [if_neg (by simpa using pySplit_ne_nil tags)]
  simp only [savefigStep_false, freshAxis, List.nil_append, List.map_nil]
  refine ⟨_, ⟨_, rfl⟩, ?_, ?_, ?_, ?_, ?_, ?_⟩
  · exact solidLines_map_label df.cols 0 (pySplit tags)
  · intro l hl
    exact solidLines_style df.cols _ _ l hl
  · rfl
  · rfl
  · rfl
  · intro hnd t ht
    exact length_filter_label _ (pySplit tags)
      (solidLines_map_label df.cols 0 _) hnd t ht

/-- Witness for C2: two tags sharing unit u1. -/
theorem PI_plot_one_unit_witness :
    (scanUnits piaW (pySplit "A D")).map Prod.snd = ["u1"] ∧
    ∃ a tr,
      PI_plot piaW dfW2 "A D" none false none none boxW =
        .ok (.single a) (some ⟨none⟩) tr ∧
      a.lines.map Line.label = pySplit "A D" ∧
      (∀ l ∈ a.lines, l.dashed = false ∧ l.alpha = none) ∧
      a.ylabel = some "u1" ∧ a.xlabel = some "Time" ∧
      a.legend = some ⟨pySplit "A D", none, none⟩ ∧
      ((pySplit "A D").Nodup → ∀ t ∈ pySplit "A D",
        (a.lines.filter (fun l => l.label == t)).length = 1) :=
  ⟨by decide, PI_plot_one_unit piaW dfW2 "A D" boxW "u1" (by decide)⟩

/-- C3: with exactly 2 distinct units, `PI_plot` (fresh figure, no
persistence) returns a list of exactly 2 axes; the tags whose unit was
discovered second are exactly the lines of axes 1, all dashed with alpha
0.3, and axes 1 has its grid disabled; the tags whose unit was discovered
first are exactly the lines of axes 0, all solid. -/
theorem PI_plot_two_units {α : Type} (pia : String → String → String)
    (df : DataFrame α) (tags : String) (b : Box) (u0 u1 : String)
    (hu : (scanUnits pia (pySplit tags)).map Prod.snd = [u0, u1]) :
    ∃ a0 a1 fg tr,
      PI_plot pia df tags none false none none b = .ok (.multi [a0, a1]) fg tr ∧
      a0.lines.map Line.label =
        (pySplit tags).filter (fun t => pia t "engunits" == u0) ∧
      (∀ l ∈ a0.lines, l.dashed = false ∧ l.alpha = none) ∧
      a1.lines.map Line.label =
        (pySplit tags).filter (fun t => pia t "engunits" == u1) ∧
      (∀ l ∈ a1.lines, l.dashed = true ∧ l.alpha = some (mkRat 3 10)) ∧
      a1.grid = false := by
  have hn : (scanUnits pia (pySplit tags)).length = 2 := by
    have h := congrArg List.length hu
    simpa using h
  have hnd : ([u0, u1] : List String).Nodup := hu ▸ scanUnits_nodup pia (pySplit tags)
  have hne : u0 ≠ u1 := by simpa using hnd
  have hp : ∀ t ∈ pySplit tags, pia t "engunits" = u0 ∨ pia t "engunits" = u1 := by
    intro t ht
    have h := scanUnits_covers pia (pySplit tags) t ht
    rw [hu] at h
    simpa using h
  have hk1 : ∃ k, k ∈ pySplit tags ∧ pia k "engunits" = u1 := by
    have h : u1 ∈ (scanUnits pia (pySplit tags)).map Prod.snd := by rw [hu]; simp
    rcases List.mem_map.mp h with ⟨p, hpm, hps⟩
    have := scanUnits_mem pia (pySplit tags) p hpm
    exact ⟨p.1, this.1, hps ▸ this.2⟩
  have hgrid : ((pySplit tags).filter (fun t => pia t "engunits" == u1)).isEmpty = false := by
    rcases hk1 with ⟨k, hkm, hk⟩
    have hmem : k ∈ (pySplit tags).filter (fun t => pia t "engunits" == u1) :=
      List.mem_filter.mpr ⟨hkm, by simp [hk]⟩
    cases hf : (pySplit tags).filter (fun t => pia t "engunits" == u1) with
    | nil => rw [hf] at hmem; cases hmem
    | cons x xs => simp [hf]
  simp only [PI_plot, hn, hu]
  rw [if_neg (by omega : ¬ (3:Nat) < 2)]
  rw [if_neg (by omega : ¬ (2:Nat) = 1)]
  rw [if_pos trivial]
  simp only [show (2:Nat) - 1 = 1 from rfl, List.range, List.range.loop, List.map_cons,
    List.map_nil, setYlabels, freshAxis, Axis.twinx]
  rcases loop2_spec pia df.cols u0 u1 hne (pySplit tags) hp
      ⟨[], some u0, none, none, true, b, none, true, true, 0⟩
      ⟨[], some u1, none, none, true, b, none, false, true, 0⟩ [] []
    with ⟨evs2, heq⟩
  rw [heq]
  simp only [listUpdate, List.get?, List.set, savefigStep_false]
  rw [if_pos (by omega : (1:Nat) < 2)]
  refine ⟨_, _, _, _, rfl, ?_, ?_, ?_, ?_, ?_⟩
  · simp [solidLines_map_label]
  · intro l hl
    exact solidLines_style df.cols _ _ l (by simpa using hl)
  · simp [dashedLines_map_label]
  · intro l hl
    exact dashedLines_style df.cols _ _ _ l (by simpa using hl)
  · simp [hgrid]

/-- Witness for C3: tags A, B, A again-styled D with units u1, u2, u1. -/
theorem PI_plot_two_units_witness :
    (scanUnits piaW (pySplit "A B D")).map Prod.snd = ["u1", "u2"] ∧
    ∃ a0 a1 fg tr,
      PI_plot piaW dfW2 "A B D" none false none none boxW =
        .ok (.multi [a0, a1]) fg tr ∧
      a0.lines.map Line.label =
        (pySplit "A B D").filter (fun t => piaW t "engunits" == "u1") ∧
      (∀ l ∈ a0.lines, l.dashed = false ∧ l.alpha = none) ∧
      a1.lines.map Line.label =
        (pySplit "A B D").filter (fun t => piaW t "engunits" == "u2") ∧
      (∀ l ∈ a1.lines, l.dashed = true ∧ l.alpha = some (mkRat 3 10)) ∧
      a1.grid = false :=
  ⟨by decide, PI_plot_two_units piaW dfW2 "A B D" boxW "u1" "u2" (by decide)⟩

/-- C4: with exactly 3 distinct units, `PI_plot` (fresh figure, no
persistence) returns a list of exactly 3 axes; the outermost secondary
axes has its right spine at axes coordinate 1.1 (110% of the axes width),
and the primary axes is repositioned to 80% of its original box width with
the origin and height unchanged. -/
theorem PI_plot_three_units_layout {α : Type} (pia : String → String → String)
    (df : DataFrame α) (tags : String) (b : Box) (u0 u1 u2 : String)
    (hu : (scanUnits pia (pySplit tags)).map Prod.snd = [u0, u1, u2]) :
    ∃ a0 a1 a2 fg tr,
      PI_plot pia df tags none false none none b = .ok (.multi [a0, a1, a2]) fg tr ∧
      a2.spineRight = some ("axes", mkRat 11 10) ∧
      a0.position = ⟨b.x0, b.y0, b.width * mkRat 4 5, b.height⟩ := by
  have hn : (scanUnits pia (pySplit tags)).length = 3 := by
    have h := congrArg List.length hu
    simpa using h
  have hp : ∀ t ∈ pySplit tags, pia t "engunits" ∈ [u0, u1, u2] := by
    intro t ht
    have h := scanUnits_covers pia (pySplit tags) t ht
    rw [hu] at h
    exact h
  simp only [PI_plot, hn, hu]
  rw [if_neg (by omega : ¬ (3:Nat) < 3)]
  rw [if_neg (by omega : ¬ (3:Nat) = 1)]
  rw [if_neg (by omega : ¬ (3:Nat) = 2)]
  rw [if_pos trivial]
  simp only [show (3:Nat) - 1 = 2 from rfl, List.range, List.range.loop, List.map_cons,
    List.map_nil, setYlabels, freshAxis, Axis.twinx]
  rcases loop3_spec pia df.cols [u0, u1, u2] rfl (pySplit tags) hp
      ⟨[], some u0, none, none, true, b, none, true, true, 0⟩
      ⟨[], some u1, none, none, true, b, none, false, true, 0⟩
      ⟨[], some u2, none, none, true, b, none, false, true, 0⟩ [] []
    with ⟨b0, b1, b2, lbls2, heq, hpos⟩
  rw [heq]
  simp only [listUpdate, List.get?, List.set, List.length_cons, List.length_nil,
    savefigStep_false]
  rw [if_pos (by omega : (1:Nat) < 3)]
  refine ⟨_, _, _, _, _, rfl, rfl, ?_⟩
  simp [hpos]

/-- Witness for C4: three tags with three distinct units. -/
theorem PI_plot_three_units_layout_witness :
    (scanUnits piaW (pySplit "A B C")).map Prod.snd = ["u1", "u2", "u3"] ∧
    ∃ a0 a1 a2 fg tr,
      PI_plot piaW dfW2 "A B C" none false none none boxW =
        .ok (.multi [a0, a1, a2]) fg tr ∧
      a2.spineRight = some ("axes", mkRat 11 10) ∧
      a0.position = ⟨boxW.x0, boxW.y0, boxW.width * mkRat 4 5, boxW.height⟩ :=
  ⟨by decide, PI_plot_three_units_layout piaW dfW2 "A B C" boxW "u1" "u2" "u3"
    (by decide)⟩

/-- C5 (amended): in the 3-unit case all colors come from the primary axes'
single property cycle, advanced once per tag: the trace holds exactly one
plot event per tag, and the i-th plotted line (in selector order) gets the
i-th cycle color, so two same-unit tags receive consecutive distinct cycle
positions, not one shared group color. -/
theorem PI_plot_three_units_colors {α : Type} (pia : String → String → String)
    (df : DataFrame α) (tags : String) (b : Box) (u0 u1 u2 : String)
    (hu : (scanUnits pia (pySplit tags)).map Prod.snd = [u0, u1, u2]) :
    ∃ r fg,
      PI_plot pia df tags none false none none b =
        .ok r fg (plot3Events pia [u0, u1, u2] 0 (pySplit tags)) ∧
      (plot3Events pia [u0, u1, u2] 0 (pySplit tags)).length =
        (pySplit tags).length ∧
      (plot3Events pia [u0, u1, u2] 0 (pySplit tags)).filterMap Event.colorOf =
        (List.range (pySplit tags).length).map (fun i => i % 10) := by
  have hn : (scanUnits pia (pySplit tags)).length = 3 := by
    have h := congrArg List.length hu
    simpa using h
  have hp : ∀ t ∈ pySplit tags, pia t "engunits" ∈ [u0, u1, u2] := by
    intro t ht
    have h := scanUnits_covers pia (pySplit tags) t ht
    rw [hu] at h
    exact h
  have main : ∃ r fg, PI_plot pia df tags none false none none b =
      .ok r fg (plot3Events pia [u0, u1, u2] 0 (pySplit tags)) := by
    simp only [PI_plot, hn, hu]
    rw [if_neg (by omega : ¬ (3:Nat) < 3)]
    rw [if_neg (by omega : ¬ (3:Nat) = 1)]
    rw [if_neg (by omega : ¬ (3:Nat) = 2)]
    rw [if_pos trivial]
    simp only [show (3:Nat) - 1 = 2 from rfl, List.range, List.range.loop, List.map_cons,
      List.map_nil, setYlabels, freshAxis, Axis.twinx]
    rcases loop3_spec pia df.cols [u0, u1, u2] rfl (pySplit tags) hp
        ⟨[], some u0, none, none, true, b, none, true, true, 0⟩
        ⟨[], some u1, none, none, true, b, none, false, true, 0⟩
        ⟨[], some u2, none, none, true, b, none, false, true, 0⟩ [] []
      with ⟨b0, b1, b2, lbls2, heq, hpos⟩
    rw [heq]
    simp only [listUpdate, List.get?, List.set, List.length_cons, List.length_nil,
      savefigStep_false]
    rw [if_pos (by omega : (1:Nat) < 3)]
    exact ⟨_, _, rfl⟩
  rcases main with ⟨r, fg, hmain⟩
  refine ⟨r, fg, hmain, plot3Events_length pia [u0, u1, u2] 0 (pySplit tags), ?_⟩
  rw [plot3Events_filterMap_colorOf]
  refine List.map_congr_left ?_
  intro i _
  omega

/-- Witness for C5 (amended): three tags with three distinct units. -/
theorem PI_plot_three_units_colors_witness :
    (scanUnits piaW (pySplit "A B C")).map Prod.snd = ["u1", "u2", "u3"] ∧
    ∃ r fg,
      PI_plot piaW dfW2 "A B C" none false none none boxW =
        .ok r fg (plot3Events piaW ["u1", "u2", "u3"] 0 (pySplit "A B C")) ∧
      (plot3Events piaW ["u1", "u2", "u3"] 0 (pySplit "A B C")).length =
        (pySplit "A B C").length ∧
      (plot3Events piaW ["u1", "u2", "u3"] 0 (pySplit "A B C")).filterMap Event.colorOf =
        (List.range (pySplit "A B C").length).map (fun i => i % 10) :=
  ⟨by decide, PI_plot_three_units_colors piaW dfW2 "A B C" boxW "u1" "u2" "u3"
    (by decide)⟩

/-- C5 counterexample: tags A, B, C, D with units u1, u2, u3, u1 — A and D
share the unit u1 and land on axes 0, but A is drawn with cycle color 0 and
D with cycle color 3: equal units do not get equal colors. -/
theorem PI_plot_group_color_counterexample :
    piaW "A" "engunits" = piaW "D" "engunits" ∧
    (Outcome.axesOf (PI_plot piaW dfW2 "A B C D" none false none none boxW)).map
        (fun a => a.lines.map (fun l => (l.label, l.color))) =
      [[("A", 0), ("D", 3)], [("B", 1)], [("C", 2)]] ∧
    (0 : Nat) ≠ 3 := by
  refine ⟨by decide, by decide, by decide⟩

/-- C6: evaluating the code at a caller-supplied file name shows the bug:
with `savefig=True`, `folder='figs/'`, `figname='myfig'` the call prints the
notice and then raises `NameError` on `fignamepdf` (bound only on the
derived-name branch), so no file is ever written; the claimed
`{folder}{figname}.pdf` / `.png` writes never happen. -/
theorem PI_plot_given_figname_name_error :
    PI_plot piaW dfW2 "A" none true (some "figs/") (some "myfig") boxW =
      .err (.nameError "fignamepdf")
        [.plot 0 "A" false none 0, .print "Saving figure as figs/myfig"] := by
  decide

/-- C7 counterexample: an index from 1 Jan 2020 08:00 to 1 Feb 2020 17:00
spans two different calendar days (the months differ), yet the derived file
name is `1-1-2020-8-1-2-2020-17-A` — it does contain the `-8` and `-17`
hour suffixes, because the code compares only the day-of-month. -/
theorem PI_plot_default_figname_counterexample :
    dfW.index.map Timestamp.month = [1, 2] ∧
    dfW.index.map Timestamp.day = [1, 1] ∧
    (PI_plot piaW dfW "A" none true (some "") none boxW) =
      .ok (.single
        { lines := [⟨"A", "A", false, none, 0⟩], ylabel := some "u1",
          xlabel := some "Time", legend := some ⟨["A"], none, none⟩, grid := true,
          position := boxW, spineRight := none, frameOn := true,
          patchVisible := true, cycleCount := 1 }) (some ⟨none⟩)
        [.plot 0 "A" false none 0,
         .print "Saving figure as 1-1-2020-8-1-2-2020-17-A",
         .save "1-1-2020-8-1-2-2020-17-A.pdf",
         .save "1-1-2020-8-1-2-2020-17-A.png"] := by
  refine ⟨by decide, by decide, by decide⟩

/-- C7 (amended): with persistence requested and no file name supplied, the
derived name carries the `-hour` suffixes exactly when the first and last
timestamps have equal `.day` (day-of-month) fields — month and year are not
compared. -/
theorem PI_plot_default_figname_day_of_month {α : Type}
    (pia : String → String → String) (df : DataFrame α) (tags fol : String)
    (b : Box) (s e : Timestamp)
    (hn : (scanUnits pia (pySplit tags)).length ≤ 3)
    (hh : df.index.head? = some s) (hl : df.index.getLast? = some e) :
    ∃ r fg evs nm,
      PI_plot pia df tags none true (some fol) none b =
        .ok r fg (evs ++
          [.print ("Saving figure as " ++ fol ++ nm),
           .save (fol ++ nm ++ ".pdf"), .save (fol ++ nm ++ ".png")]) ∧
      nm = toString s.day ++ "-" ++ toString s.month ++ "-" ++ toString s.year ++
        (if s.day = e.day then "-" ++ toString s.hour else "") ++ "-" ++
        toString e.day ++ "-" ++ toString e.month ++ "-" ++ toString e.year ++
        (if s.day = e.day then "-" ++ toString e.hour else "") ++ "-" ++
        String.intercalate "_" (pySplit tags) := by
  have h4 : (scanUnits pia (pySplit tags)).length = 0 ∨
      (scanUnits pia (pySplit tags)).length = 1 ∨
      (scanUnits pia (pySplit tags)).length = 2 ∨
      (scanUnits pia (pySplit tags)).length = 3 := by omega
  rcases h4 with hc | hc | hc | hc
  · simp only [PI_plot, hc]
    rw [if_neg (by omega : ¬ (3:Nat) < 0)]
    rw [if_neg (by omega : ¬ (0:Nat) = 1)]
    rw [if_neg (by omega : ¬ (0:Nat) = 2)]
    rw [if_neg (by omega : ¬ (0:Nat) = 3)]
    rw [savefigStep_default_name fol df.index s e hh hl]
    exact ⟨_, _, _, _, rfl, rfl⟩
  · simp only [PI_plot, hc]
    rw [if_neg (by omega : ¬ (3:Nat) < 1)]
    rw [if_pos trivial]
    rw [savefigStep_default_name fol df.index s e hh hl]
    exact ⟨_, _, _, _, rfl, rfl⟩
  · simp only [PI_plot, hc]
    rw [if_neg (by omega : ¬ (3:Nat) < 2)]
    rw [if_neg (by omega : ¬ (2:Nat) = 1)]
    rw [if_pos trivial]
    rw [savefigStep_default_name fol df.index s e hh hl]
    exact ⟨_, _, _, _, rfl, rfl⟩
  · simp only [PI_plot, hc]
    rw [if_neg (by omega : ¬ (3:Nat) < 3)]
    rw [if_neg (by omega : ¬ (3:Nat) = 1)]
    rw [if_neg (by omega : ¬ (3:Nat) = 2)]
    rw [if_pos trivial]
    rw [savefigStep_default_name fol df.index s e hh hl]
    exact ⟨_, _, _, _, rfl, rfl⟩

/-- Witness for C7 (amended): a single-day index from 08:00 to 17:00 yields
the name `5-3-2021-8-5-3-2021-17-A` with both hour suffixes. -/
theorem PI_plot_default_figname_day_of_month_witness :
    (scanUnits piaW (pySplit "A")).length ≤ 3 ∧
    dfW2.index.head? = some ⟨5, 3, 2021, 8⟩ ∧
    dfW2.index.getLast? = some ⟨5, 3, 2021, 17⟩ ∧
    ∃ r fg evs nm,
      PI_plot piaW dfW2 "A" none true (some "") none boxW =
        .ok r fg (evs ++
          [.print ("Saving figure as " ++ "" ++ nm),
           .save ("" ++ nm ++ ".pdf"), .save ("" ++ nm ++ ".png")]) ∧
      nm = toString (5:Nat) ++ "-" ++ toString (3:Nat) ++ "-" ++ toString (2021:Nat) ++
        (if (5:Nat) = 5 then "-" ++ toString (8:Nat) else "") ++ "-" ++
        toString (5:Nat) ++ "-" ++ toString (3:Nat) ++ "-" ++ toString (2021:Nat) ++
        (if (5:Nat) = 5 then "-" ++ toString (17:Nat) else "") ++ "-" ++
        String.intercalate "_" (pySplit "A") :=
  ⟨by decide, by decide, by decide,
    PI_plot_default_figname_day_of_month piaW dfW2 "A" "" boxW
      ⟨5, 3, 2021, 8⟩ ⟨5, 3, 2021, 17⟩ (by decide) (by decide) (by decide)⟩

/-! The metadata factory. -/

/-- C8: with no overrides the factory returns the record of exactly the 57
fixed keys, every value the empty string; the tag argument is never written
into the record, so the result is the same for any two tags. -/
theorem create_pi_attributes_default (tag tag2 : String) :
    create_pi_attributes tag [] = piKeys.map (fun k => (k, "")) ∧
    piKeys.length = 57 ∧
    piKeys.Nodup ∧
    (∀ p ∈ create_pi_attributes tag [], p.2 = "") ∧
    create_pi_attributes tag [] = create_pi_attributes tag2 [] := by
  refine ⟨rfl, by decide, by decide, ?_, rfl⟩
  intro p hp
  rcases List.mem_map.mp hp with ⟨k, _, hk⟩
  rw [← hk]

/-! Dictionary-update lemmas for the keyword overrides. -/

lemma contains_eq_decide (l : List String) (k : String) :
    l.contains k = decide (k ∈ l) := by
  simp [List.contains]

lemma lookup_map_update_self (k v : String) :
    ∀ (d : List (String × String)), k ∈ d.map Prod.fst →
      List.lookup k (d.map (fun p => if p.1 = k then (k, v) else p)) = some v := by
  intro d
  induction d with
  | nil => intro h; cases h
  | cons p rest ih =>
      intro h
      rw [List.map_cons] at h
      simp only [List.map_cons]
      by_cases hp : p.1 = k
      · rw [if_pos hp]
        simp [List.lookup]
      · rw [if_neg hp]
        have hk : k ∈ rest.map Prod.fst := by
          rcases List.mem_cons.mp h with h2 | h2
          · exact absurd h2.symm hp
          · exact h2
        have hb : (k == p.1) = false := by
          simp only [beq_eq_false_iff_ne]
          exact fun he => hp he.symm
        simp [List.lookup, hb, ih hk]

lemma lookup_map_update_other (k v k2 : String) (hne : k2 ≠ k) :
    ∀ (d : List (String × String)),
      List.lookup k2 (d.map (fun p => if p.1 = k then (k, v) else p)) =
        List.lookup k2 d := by
  intro d
  induction d with
  | nil => rfl
  | cons p rest ih =>
      simp only [List.map_cons]
      by_cases hp : p.1 = k
      · rw [if_pos hp]
        have hb : (k2 == k) = false := by simpa using hne
        have hb2 : (k2 == p.1) = false := by rw [hp]; exact hb
        simp [List.lookup, hb, hb2, ih]
      · rw [if_neg hp]
        by_cases hk : k2 = p.1
        · simp [List.lookup, hk]
        · have hb : (k2 == p.1) = false := by simpa using hk
          simp [List.lookup, hb, ih]

lemma lookup_append_left (k2 : String) :
    ∀ (d e : List (String × String)),
      List.lookup k2 (d ++ e) =
        match List.lookup k2 d with
        | some v => some v
        | none => List.lookup k2 e := by
  intro d e
  induction d with
  | nil => rfl
  | cons p rest ih =>
      by_cases hk : k2 = p.1
      · simp [List.lookup, hk]
      · have hb : (k2 == p.1) = false := by simpa using hk
        simp [List.lookup, hb, ih]

lemma lookup_of_not_mem_keys (k : String) :
    ∀ (d : List (String × String)), k ∉ d.map Prod.fst →
      List.lookup k d = none := by
  intro d
  induction d with
  | nil => intro _; rfl
  | cons p rest ih =>
      intro h
      simp only [List.map_cons, List.mem_cons] at h
      push_neg at h
      have hb : (k == p.1) = false := by simpa using h.1
      simp [List.lookup, hb, ih h.2]

lemma dictSet_keys_of_mem (d : List (String × String)) (k v : String)
    (h : k ∈ d.map Prod.fst) :
    (dictSet d k v).map Prod.fst = d.map Prod.fst := by
  simp only [dictSet]
  rw [if_pos (by simpa using h)]
  rw [List.map_map]
  refine List.map_congr_left ?_
  intro p _
  simp only [Function.comp]
  by_cases hp : p.1 = k
  · simp [hp]
  · simp [hp]

lemma dictSet_of_not_mem (d : List (String × String)) (k v : String)
    (h : k ∉ d.map Prod.fst) :
    dictSet d k v = d ++ [(k, v)] := by
  simp only [dictSet]
  rw [if_neg (by simpa using h)]

lemma dictSet_lookup_self (d : List (String × String)) (k v : String) :
    List.lookup k (dictSet d k v) = some v := by
  by_cases h : k ∈ d.map Prod.fst
  · simp only [dictSet]
    rw [if_pos (by simpa using h)]
    exact lookup_map_update_self k v d h
  · rw [dictSet_of_not_mem d k v h, lookup_append_left k d [(k, v)],
      lookup_of_not_mem_keys k d h]
    simp [List.lookup]

lemma dictSet_lookup_other (d : List (String × String)) (k v k2 : String)
    (hne : k2 ≠ k) :
    List.lookup k2 (dictSet d k v) = List.lookup k2 d := by
  by_cases h : k ∈ d.map Prod.fst
  · simp only [dictSet]
    rw [if_pos (by simpa using h)]
    exact lookup_map_update_other k v k2 hne d
  · rw [dictSet_of_not_mem d k v h, lookup_append_left k2 d [(k, v)]]
    have hb : (k2 == k) = false := by simpa using hne
    cases hl : List.lookup k2 d with
    | none => simp [List.lookup, hb]
    | some w => simp

/-- Closed form of the override fold: final keys and final lookups. -/
lemma create_fold_spec :
    ∀ (kwargs : List (String × String)), (kwargs.map Prod.fst).Nodup →
    ∀ (d : List (String × String)),
      ((kwargs.foldl (fun d kv => dictSet d kv.1 kv.2) d).map Prod.fst =
        d.map Prod.fst ++
          (kwargs.map Prod.fst).filter (fun k => !(d.map Prod.fst).contains k)) ∧
      (∀ k : String,
        List.lookup k (kwargs.foldl (fun d kv => dictSet d kv.1 kv.2) d) =
          match List.lookup k kwargs with
          | some v => some v
          | none => List.lookup k d) := by
  intro kwargs
  induction kwargs with
  | nil =>
      intro _ d
      refine ⟨by simp, ?_⟩
      intro k
      rfl
  | cons kv rest ih =>
      obtain ⟨k0, v0⟩ := kv
      intro hnd d
      rw [List.map_cons] at hnd
      have hk0 : k0 ∉ rest.map Prod.fst := (List.nodup_cons.mp hnd).1
      have hnd2 : (rest.map Prod.fst).Nodup := (List.nodup_cons.mp hnd).2
      rcases ih hnd2 (dictSet d k0 v0) with ⟨ihk, ihl⟩
      constructor
      · rw [List.foldl_cons, ihk]
        by_cases h : k0 ∈ d.map Prod.fst
        · rw [dictSet_keys_of_mem d k0 v0 h]
          have hp0 : (!decide (k0 ∈ d.map Prod.fst)) = false := by simp [h]
          simp [List.filter_cons, hp0]
        · rw [dictSet_of_not_mem d k0 v0 h]
          have hcongr : ∀ x ∈ rest.map Prod.fst,
              (!((d ++ [(k0, v0)]).map Prod.fst).contains x) =
                (!(d.map Prod.fst).contains x) := by
            intro x hx
            have hxne : x ≠ k0 := fun he => hk0 (he ▸ hx)
            rw [contains_eq_decide, contains_eq_decide]
            simp [hxne]
          rw [List.filter_congr hcongr]
          have hp0 : (!decide (k0 ∈ d.map Prod.fst)) = true := by simp [h]
          simp [List.filter_cons, hp0, List.append_assoc]
      · intro k
        rw [List.foldl_cons, ihl k]
        by_cases hk : k = k0
        · subst hk
          rw [lookup_of_not_mem_keys k rest hk0, dictSet_lookup_self d k v0]
          simp [List.lookup]
        · have hb : (k == k0) = false := by simpa using hk
          rw [dictSet_lookup_other d k0 v0 k hk]
          simp only [List.lookup, hb]

/-- Helper: lookups in the all-empty default record. -/
lemma lookup_const_map (k c : String) :
    ∀ (l : List String),
      List.lookup k (l.map (fun x => (x, c))) =
        if l.contains k then some c else none := by
  intro l
  induction l with
  | nil => rfl
  | cons x rest ih =>
      by_cases hx : k = x
      · subst hx
        simp [List.lookup, contains_eq_decide]
      · have hb : (k == x) = false := by simpa using hx
        simp [List.lookup, hb, ih, contains_eq_decide, hx]

/-- C9: with keyword overrides (distinct names), the factory returns the
default record with each override key set to its supplied value; a key
outside the fixed schema raises no error and is appended to the record
after the 57 fixed keys. -/
theorem create_pi_attributes_overrides (tag : String)
    (kwargs : List (String × String)) (hnd : (kwargs.map Prod.fst).Nodup) :
    (create_pi_attributes tag kwargs).map Prod.fst =
      piKeys ++ (kwargs.map Prod.fst).filter (fun k => ! piKeys.contains k) ∧
    ∀ k : String,
      List.lookup k (create_pi_attributes tag kwargs) =
        match List.lookup k kwargs with
        | some v => some v
        | none => if piKeys.contains k then some "" else none := by
  rcases create_fold_spec kwargs hnd (piKeys.map (fun k => (k, ""))) with ⟨hk, hl⟩
  have hkeys : ∀ l : List String, (l.map (fun k => (k, ""))).map Prod.fst = l := by
    intro l
    induction l with
    | nil => rfl
    | cons x xs ih => simp only [List.map_cons, ih]
  constructor
  · rw [create_pi_attributes, hk, hkeys]
  · intro k
    rw [create_pi_attributes, hl k, lookup_const_map k "" piKeys]

/-- Witness for C9: a schema override (`engunits`) and a foreign key
(`zzz`). -/
theorem create_pi_attributes_overrides_witness :
    List.lookup "engunits"
      (create_pi_attributes "VI290003X" [("engunits", "PSI"), ("zzz", "w")]) =
        some "PSI" ∧
    List.lookup "descriptor"
      (create_pi_attributes "VI290003X" [("engunits", "PSI"), ("zzz", "w")]) =
        some "" ∧
    List.lookup "zzz"
      (create_pi_attributes "VI290003X" [("engunits", "PSI"), ("zzz", "w")]) =
        some "w" ∧
    (create_pi_attributes "VI290003X" [("engunits", "PSI"), ("zzz", "w")]).map
        Prod.fst = piKeys ++ ["zzz"] := by
  have h := create_pi_attributes_overrides "VI290003X"
    [("engunits", "PSI"), ("zzz", "w")] (by decide)
  refine ⟨(h.2 "engunits").trans (by decide), (h.2 "descriptor").trans (by decide),
    (h.2 "zzz").trans (by decide), h.1.trans (by decide)⟩

end PIPlot
